import Mathlib

/-!
Verification of the video-anomaly-detection core
(`src/detector.py`, `src/activity_classifier.py`, `src/anomaly_detector.py`).

Modelling conventions, used throughout:

* Python floats are embedded as exact rationals (`ℚ`).  Pixel geometry,
  thresholds and timestamps are all rational.
* Euclidean norms/distances appear in the source only inside order
  comparisons (`speed < 2.0`, `distance < 80`, `max(max_distance, d)`,
  `max_accel > 10.0`, ...).  Since `x ↦ x²` is a strictly monotone
  bijection on nonnegative reals, every such comparison is embedded
  exactly by comparing squared norms with squared thresholds, and the
  running maximum of distances is tracked as the running maximum of
  squared distances.  This keeps every definition inside `ℚ` and
  therefore executable/decidable.
* The angle computations of `activity_classifier.py`
  (`_calculate_direction` via `atan2` in degrees, `_angle_difference`
  folding into [0°,180°]) only feed the comparison `angle_diff > 45.0`.
  The minimal angular difference between the `atan2` directions of two
  nonzero displacement vectors `u`, `v` is exactly the geometric angle
  θ ∈ [0°,180°] between `u` and `v`, and `θ > 45°  ↔  cos θ < √2/2  ↔
  (u·v < 0  ∨  2·(u·v)² < ‖u‖²·‖v‖²)` — an exact rational test, used
  here as the embedding of the degree comparison.
* Python `dict`s (insertion-ordered, update-in-place) are embedded as
  association lists with an update function that replaces in place and
  appends fresh keys at the end; `dict.get`/`in` become `List.lookup`.
* `time.time()` is not modelled as an effect: every function of
  `anomaly_detector.py` that reads the wall clock takes the value of
  `time.time()` at the moment of the call as an explicit argument
  `now`, distinct from the video timestamp argument `timestamp`.
-/

namespace VAD

/-- Squared Euclidean norm of a 2-D vector (embeds `np.linalg.norm(v)`
comparisons, squared). -/
def normSq (v : ℚ × ℚ) : ℚ := v.1 * v.1 + v.2 * v.2

/-- Squared Euclidean distance between two points (embeds
`scipy euclidean` / `np.linalg.norm(a-b)` comparisons, squared). -/
def distSq (p q : ℚ × ℚ) : ℚ := normSq (p.1 - q.1, p.2 - q.2)

/-- Axis-aligned bounding box `[x1, y1, x2, y2]`. -/
structure Box where
  x1 : ℚ
  y1 : ℚ
  x2 : ℚ
  y2 : ℚ
deriving DecidableEq, Repr

/-- A box as produced by the detector: positive extent on both axes. -/
def Box.WellFormed (b : Box) : Prop := b.x1 < b.x2 ∧ b.y1 < b.y2

instance : DecidablePred Box.WellFormed := fun b =>
  inferInstanceAs (Decidable (_ ∧ _))

/-- `ObjectTracker._bbox_center` / `AnomalyDetector._get_center` /
`ActivityClassifier._get_center`. -/
def bboxCenter (b : Box) : ℚ × ℚ := ((b.x1 + b.x2) / 2, (b.y1 + b.y2) / 2)

/-- `ObjectTracker._calculate_iou`. -/
def calculate_iou (b1 b2 : Box) : ℚ :=
  let x1i := max b1.x1 b2.x1
  let y1i := max b1.y1 b2.y1
  let x2i := min b1.x2 b2.x2
  let y2i := min b1.y2 b2.y2
  if x2i < x1i ∨ y2i < y1i then 0
  else
    let inter := (x2i - x1i) * (y2i - y1i)
    let area1 := (b1.x2 - b1.x1) * (b1.y2 - b1.y1)
    let area2 := (b2.x2 - b2.x1) * (b2.y2 - b2.y1)
    let uni := area1 + area2 - inter
    if 0 < uni then inter / uni else 0

/-- Two boxes do not overlap: their interiors are disjoint, i.e. they
are separated (possibly touching) along some axis. -/
def Box.NoOverlap (b1 b2 : Box) : Prop :=
  min b1.x2 b2.x2 ≤ max b1.x1 b2.x1 ∨ min b1.y2 b2.y2 ≤ max b1.y1 b2.y1

end VAD

namespace VAD

lemma iou_comm (b1 b2 : Box) : calculate_iou b1 b2 = calculate_iou b2 b1 := by
  simp only [calculate_iou]
  rw [max_comm b1.x1 b2.x1, max_comm b1.y1 b2.y1,
      min_comm b1.x2 b2.x2, min_comm b1.y2 b2.y2]
  split
  · rfl
  · have h : (b1.x2 - b1.x1) * (b1.y2 - b1.y1) + (b2.x2 - b2.x1) * (b2.y2 - b2.y1)
        = (b2.x2 - b2.x1) * (b2.y2 - b2.y1) + (b1.x2 - b1.x1) * (b1.y2 - b1.y1) := by
      ring
    rw [h]

lemma iou_nonneg (b1 b2 : Box) (h1 : b1.WellFormed) (h2 : b2.WellFormed) :
    0 ≤ calculate_iou b1 b2 := by
  simp only [calculate_iou]
  split
  · exact le_refl 0
  · rename_i hno
    push_neg at hno
    split
    · rename_i hu
      apply div_nonneg _ (le_of_lt hu)
      have hx : max b1.x1 b2.x1 ≤ min b1.x2 b2.x2 := hno.1
      have hy : max b1.y1 b2.y1 ≤ min b1.y2 b2.y2 := hno.2
      nlinarith [hx, hy]
    · exact le_refl 0

lemma iou_le_one (b1 b2 : Box) (h1 : b1.WellFormed) (h2 : b2.WellFormed) :
    calculate_iou b1 b2 ≤ 1 := by
  simp only [calculate_iou]
  split
  · norm_num
  · rename_i hno
    push_neg at hno
    split
    · rename_i hu
      rw [div_le_one hu]
      have hxa : b1.x1 ≤ max b1.x1 b2.x1 := le_max_left _ _
      have hxb : min b1.x2 b2.x2 ≤ b1.x2 := min_le_left _ _
      have hya : b1.y1 ≤ max b1.y1 b2.y1 := le_max_left _ _
      have hyb : min b1.y2 b2.y2 ≤ b1.y2 := min_le_left _ _
      have hxc : b2.x1 ≤ max b1.x1 b2.x1 := le_max_right _ _
      have hxd : min b1.x2 b2.x2 ≤ b2.x2 := min_le_right _ _
      have hyc : b2.y1 ≤ max b1.y1 b2.y1 := le_max_right _ _
      have hyd : min b1.y2 b2.y2 ≤ b2.y2 := min_le_right _ _
      have hwx : max b1.x1 b2.x1 ≤ min b1.x2 b2.x2 := hno.1
      have hwy : max b1.y1 b2.y1 ≤ min b1.y2 b2.y2 := hno.2
      -- intersection ≤ area1, hence intersection ≤ union
      nlinarith [hwx, hwy, h1.1, h1.2, h2.1, h2.2]
    · norm_num

lemma iou_self (b : Box) (h : b.WellFormed) : calculate_iou b b = 1 := by
  simp only [calculate_iou]
  simp only [max_self, min_self]
  have hx : ¬ (b.x2 < b.x1 ∨ b.y2 < b.y1) := by
    push_neg
    exact ⟨le_of_lt h.1, le_of_lt h.2⟩
  rw [if_neg hx]
  have harea : (0:ℚ) < (b.x2 - b.x1) * (b.y2 - b.y1) := by
    have := h.1
    have := h.2
    nlinarith
  have hu : (0:ℚ) < (b.x2 - b.x1) * (b.y2 - b.y1) + (b.x2 - b.x1) * (b.y2 - b.y1)
      - (b.x2 - b.x1) * (b.y2 - b.y1) := by linarith
  rw [if_pos hu]
  field_simp

lemma iou_no_overlap (b1 b2 : Box) (h1 : b1.WellFormed) (h2 : b2.WellFormed)
    (hd : Box.NoOverlap b1 b2) : calculate_iou b1 b2 = 0 := by
  simp only [calculate_iou]
  split
  · rfl
  · rename_i hno
    push_neg at hno
    have hinter : (min b1.x2 b2.x2 - max b1.x1 b2.x1) *
        (min b1.y2 b2.y2 - max b1.y1 b2.y1) = 0 := by
      rcases hd with hx | hy
      · have : min b1.x2 b2.x2 - max b1.x1 b2.x1 = 0 := le_antisymm (by linarith) (by linarith [hno.1])
        rw [this, zero_mul]
      · have : min b1.y2 b2.y2 - max b1.y1 b2.y1 = 0 := le_antisymm (by linarith) (by linarith [hno.2])
        rw [this, mul_zero]
    rw [hinter]
    split
    · rw [zero_div]
    · rfl

/-- C7: `_calculate_iou` is symmetric, lies in [0,1], equals 1 on identical
boxes, and equals 0 on non-overlapping (interior-disjoint) boxes — for all
well-formed (positive-extent) boxes, the shape every detector bbox has. -/
theorem iou_spec (b1 b2 : Box) (h1 : b1.WellFormed) (h2 : b2.WellFormed) :
    calculate_iou b1 b2 = calculate_iou b2 b1 ∧
    0 ≤ calculate_iou b1 b2 ∧ calculate_iou b1 b2 ≤ 1 ∧
    calculate_iou b1 b1 = 1 ∧
    (Box.NoOverlap b1 b2 → calculate_iou b1 b2 = 0) := by
  exact ⟨iou_comm b1 b2, iou_nonneg b1 b2 h1 h2, iou_le_one b1 b2 h1 h2,
    iou_self b1 h1, iou_no_overlap b1 b2 h1 h2⟩

/-- Witness for C7 at the concrete boxes [0,0,10,10] and [5,5,20,20]
(overlapping) — all five properties instantiated and the hypotheses
discharged by computation. -/
theorem iou_spec_witness :
    calculate_iou ⟨0,0,10,10⟩ ⟨5,5,20,20⟩ = calculate_iou ⟨5,5,20,20⟩ ⟨0,0,10,10⟩ ∧
    0 ≤ calculate_iou ⟨0,0,10,10⟩ ⟨5,5,20,20⟩ ∧
    calculate_iou ⟨0,0,10,10⟩ ⟨5,5,20,20⟩ ≤ 1 ∧
    calculate_iou ⟨0,0,10,10⟩ ⟨0,0,10,10⟩ = 1 ∧
    (Box.NoOverlap ⟨0,0,10,10⟩ ⟨5,5,20,20⟩ → calculate_iou ⟨0,0,10,10⟩ ⟨5,5,20,20⟩ = 0) :=
  iou_spec ⟨0,0,10,10⟩ ⟨5,5,20,20⟩ (by decide) (by decide)

end VAD

namespace VAD

/-! ## Track Registry (`src/detector.py`, class `ObjectTracker`)

`last_seen = time.time()` is stored by the source but never read by any
code in the repository, so the field is omitted from the embedding. -/

/-- One detection as fed to `ObjectTracker.update`
(`{bbox, confidence, class_id}`). -/
structure Detection where
  bbox : Box
  confidence : ℚ
  class_id : ℕ
deriving DecidableEq, Repr

/-- A track record as created by `ObjectTracker._create_track`. -/
structure Track where
  id : ℕ
  bbox : Box
  class_id : ℕ
  confidence : ℚ
  history : List (ℚ × ℚ)
  age : ℕ
  hits : ℕ
  velocity : ℚ × ℚ
deriving DecidableEq, Repr

/-- `ObjectTracker.__init__`: `max_history = 30`. -/
def max_history : ℕ := 30

/-- `ObjectTracker.__init__`: `max_age = 30`. -/
def max_age : ℕ := 30

/-- Append to a bounded `deque(maxlen = cap)`: drop the oldest element
once the capacity is reached. -/
def dequeAppend (cap : ℕ) (h : List α) (x : α) : List α :=
  if h.length < cap then h ++ [x] else h.tail ++ [x]

/-- The mutable state of an `ObjectTracker`: the insertion-ordered track
map (`self.tracks`, a Python dict keyed by id) and `self.next_id`. -/
structure TrackerState where
  tracks : List Track
  next_id : ℕ
deriving DecidableEq, Repr

/-- `ObjectTracker()` fresh instance: no tracks, `next_id = 1`. -/
def initTracker : TrackerState := ⟨[], 1⟩

/-- `ObjectTracker._create_track` applied to one detection with the
given fresh id. -/
def mkTrack (tid : ℕ) (det : Detection) : Track :=
  { id := tid
    bbox := det.bbox
    class_id := det.class_id
    confidence := det.confidence
    history := [bboxCenter det.bbox]
    age := 0
    hits := 1
    velocity := (0, 0) }

/-- Sequential `_create_track` calls for a list of detections, consuming
consecutive ids starting at `tid`. -/
def mkTracks (tid : ℕ) : List Detection → List Track
  | [] => []
  | d :: ds => mkTrack tid d :: mkTracks (tid + 1) ds

/-- `ObjectTracker._update_track`: refresh a matched track from its
detection (velocity = new center − old center, `age := 0`,
`hits += 1`, history appended with cap 30). -/
def refreshTrack (tr : Track) (det : Detection) : Track :=
  let oldCenter := bboxCenter tr.bbox
  let newCenter := bboxCenter det.bbox
  { tr with
    bbox := det.bbox
    confidence := det.confidence
    history := dequeAppend max_history tr.history newCenter
    age := 0
    hits := tr.hits + 1
    velocity := (newCenter.1 - oldCenter.1, newCenter.2 - oldCenter.2) }

/-- Ascending order on the `(cost, det_idx, track_idx)` triples:
Python's `list.sort()` on tuples is lexicographic. -/
def costLe (a b : ℚ × ℕ × ℕ) : Bool :=
  decide (a.1 < b.1 ∨ (a.1 = b.1 ∧ (a.2.1 < b.2.1 ∨ (a.2.1 = b.2.1 ∧ a.2.2 ≤ b.2.2))))

/-- The greedy walk over the sorted cost list in `_associate_detections`:
accumulates `matched_detections`, `matched_tracks` and the accepted
(det index, track index) pairs; a pair is accepted only when both sides
are still unmatched and `cost < 0.7`. -/
def greedyWalk : List (ℚ × ℕ × ℕ) → List ℕ × List ℕ × List (ℕ × ℕ) →
    List ℕ × List ℕ × List (ℕ × ℕ)
  | [], acc => acc
  | (c, i, j) :: rest, (mds, mts, prs) =>
    if i ∈ mds ∨ j ∈ mts then greedyWalk rest (mds, mts, prs)
    else if c < 7/10 then greedyWalk rest (i :: mds, j :: mts, (i, j) :: prs)
    else greedyWalk rest (mds, mts, prs)

/-- Placeholder detection for the (never-reached) out-of-range index
case of `detections[det_idx]`. -/
def dummyDet : Detection := ⟨⟨0, 0, 0, 0⟩, 0, 0⟩

/-- The effect of `_associate_detections` on one existing track (at
enumeration index `jtr.1`): refreshed by the unique detection the greedy
walk paired with it, or aged by one if it stayed unmatched. -/
def applyMatch (dets : List Detection) (prs : List (ℕ × ℕ)) (jtr : ℕ × Track) : Track :=
  match prs.find? (fun p => p.2 = jtr.1) with
  | some p => refreshTrack jtr.2 (dets.getD p.1 dummyDet)
  | none => { jtr.2 with age := jtr.2.age + 1 }

/-- The cost matrix of `_associate_detections`, flattened to
`(cost, det_idx, track_idx)` triples in enumeration order, sorted
ascending (Python tuple order), and walked greedily: returns
`(matched_detections, matched_tracks, accepted pairs)`. -/
def assocPairs (s : TrackerState) (dets : List Detection) :
    List ℕ × List ℕ × List (ℕ × ℕ) :=
  let flat := dets.enum.flatMap (fun idet =>
    s.tracks.enum.map (fun jtr =>
      (1 - calculate_iou idet.2.bbox jtr.2.bbox, idet.1, jtr.1)))
  greedyWalk (flat.mergeSort costLe) ([], [], [])

/-- The detections left unmatched by the greedy walk, in input order
(the ones `_associate_detections` turns into new tracks). -/
def newDetections (s : TrackerState) (dets : List Detection) : List Detection :=
  (dets.enum.filter (fun idet => ¬ idet.1 ∈ (assocPairs s dets).1)).map (·.2)

/-- `ObjectTracker._associate_detections`.  The net effect of the
source's in-place mutations: every existing track (dict order kept) is
either refreshed by the unique detection the greedy walk matched to it
or aged by one; unmatched detections spawn new tracks appended after the
existing ones, consuming consecutive ids. -/
def associateDetections (s : TrackerState) (dets : List Detection) : TrackerState :=
  if dets = [] then
    { s with tracks := s.tracks.map (fun tr => { tr with age := tr.age + 1 }) }
  else
    { tracks := s.tracks.enum.map (applyMatch dets (assocPairs s dets).2.2)
        ++ mkTracks s.next_id (newDetections s dets)
      next_id := s.next_id + (newDetections s dets).length }

/-- `ObjectTracker._cleanup_tracks`: drop tracks with `age > max_age`. -/
def cleanupTracks (s : TrackerState) : TrackerState :=
  { s with tracks := s.tracks.filter (fun tr => decide (tr.age ≤ max_age)) }

/-- `ObjectTracker._get_active_tracks`: only tracks with `hits ≥ 3`. -/
def getActiveTracks (s : TrackerState) : List Track :=
  s.tracks.filter (fun tr => decide (3 ≤ tr.hits))

/-- `ObjectTracker.update`: returns the new state together with the
returned list of active tracks. -/
def trackerUpdate (s : TrackerState) (dets : List Detection) :
    TrackerState × List Track :=
  let s1 :=
    if s.tracks = [] then
      { tracks := mkTracks s.next_id dets, next_id := s.next_id + dets.length }
    else
      associateDetections s dets
  let s2 := cleanupTracks s1
  (s2, getActiveTracks s2)

end VAD

namespace VAD

lemma mem_of_mem_enum {l : List α} {p : ℕ × α} (h : p ∈ l.enum) : p.2 ∈ l := by
  have h2 : p.2 ∈ l.enum.map Prod.snd := List.mem_map_of_mem Prod.snd h
  rwa [List.enum_map_snd] at h2

lemma mkTracks_hits_age {ds : List Detection} :
    ∀ {n : ℕ}, ∀ t ∈ mkTracks n ds, t.hits = 1 ∧ t.age = 0 := by
  induction ds with
  | nil => intro n t ht; simp [mkTracks] at ht
  | cons d ds ih =>
    intro n t ht
    rcases List.mem_cons.mp ht with h | h
    · subst h; exact ⟨rfl, rfl⟩
    · exact ih t h

lemma mkTracks_map_id (ds : List Detection) :
    ∀ n : ℕ, (mkTracks n ds).map Track.id = List.range' n ds.length := by
  induction ds with
  | nil => intro n; rfl
  | cons d ds ih =>
    intro n
    simp only [mkTracks, List.map_cons, List.length_cons, List.range'_succ]
    exact congrArg (n :: ·) (ih (n + 1))

lemma mkTracks_id_lb {ds : List Detection} :
    ∀ {n : ℕ}, ∀ t ∈ mkTracks n ds, n ≤ t.id ∧ t.id < n + ds.length := by
  intro n t ht
  have : t.id ∈ (mkTracks n ds).map Track.id := List.mem_map_of_mem Track.id ht
  rw [mkTracks_map_id] at this
  exact List.mem_range'_1.mp this

end VAD

namespace VAD

/-- C9: with no live tracks (the first-ever `update` call), every
detection of a non-empty input — even exact duplicates, no IoU
screening among detections — creates its own fresh track, all with
`hits = 1` and pairwise-distinct ids, and the call returns the empty
list because no track has `hits ≥ 3` yet. -/
theorem first_update_unconfirmed (ds : List Detection) (hne : ds ≠ []) :
    (trackerUpdate initTracker ds).2 = [] ∧
    (trackerUpdate initTracker ds).1.tracks.length = ds.length ∧
    ((trackerUpdate initTracker ds).1.tracks.map Track.id).Nodup ∧
    ∀ t ∈ (trackerUpdate initTracker ds).1.tracks, t.hits = 1 := by
  have hcleanup :
      cleanupTracks ⟨mkTracks 1 ds, 1 + ds.length⟩ = ⟨mkTracks 1 ds, 1 + ds.length⟩ := by
    unfold cleanupTracks
    simp only [TrackerState.mk.injEq, and_true]
    apply List.filter_eq_self.mpr
    intro t ht
    have := (mkTracks_hits_age t ht).2
    simp [this, max_age]
  have hupd : trackerUpdate initTracker ds =
      (⟨mkTracks 1 ds, 1 + ds.length⟩, getActiveTracks ⟨mkTracks 1 ds, 1 + ds.length⟩) := by
    unfold trackerUpdate
    simp only [initTracker, eq_self_iff_true, if_true]
    rw [hcleanup]
  rw [hupd]
  refine ⟨?_, ?_, ?_, ?_⟩
  · apply List.filter_eq_nil_iff.mpr
    intro t ht
    have := (mkTracks_hits_age t ht).1
    simp [this]
  · have := congrArg List.length (mkTracks_map_id ds 1)
    simpa using this
  · rw [mkTracks_map_id]
    exact (List.pairwise_lt_range' 1 ds.length).nodup
  · intro t ht
    exact (mkTracks_hits_age t ht).1

/-- Witness for C9 at two identical concrete detections: both create
tracks, nothing is returned. -/
theorem first_update_unconfirmed_witness :
    ([⟨⟨0,0,10,10⟩, 1/2, 0⟩, ⟨⟨0,0,10,10⟩, 1/2, 0⟩] : List Detection) ≠ [] ∧
    ((trackerUpdate initTracker [⟨⟨0,0,10,10⟩, 1/2, 0⟩, ⟨⟨0,0,10,10⟩, 1/2, 0⟩]).2 = [] ∧
     (trackerUpdate initTracker [⟨⟨0,0,10,10⟩, 1/2, 0⟩, ⟨⟨0,0,10,10⟩, 1/2, 0⟩]).1.tracks.length = 2 ∧
     ((trackerUpdate initTracker [⟨⟨0,0,10,10⟩, 1/2, 0⟩, ⟨⟨0,0,10,10⟩, 1/2, 0⟩]).1.tracks.map Track.id).Nodup ∧
     ∀ t ∈ (trackerUpdate initTracker [⟨⟨0,0,10,10⟩, 1/2, 0⟩, ⟨⟨0,0,10,10⟩, 1/2, 0⟩]).1.tracks, t.hits = 1) :=
  ⟨by decide, first_update_unconfirmed _ (by decide)⟩

end VAD

namespace VAD

/-- Basic well-formedness of a tracker state: every live track's id was
drawn from the id counter.  Holds for the fresh tracker and is preserved
by `update` (see `trackerInv_step`). -/
def TrackerInv (s : TrackerState) : Prop := ∀ t ∈ s.tracks, t.id < s.next_id

instance : DecidablePred TrackerInv := fun s =>
  inferInstanceAs (Decidable (∀ t ∈ s.tracks, t.id < s.next_id))

lemma applyMatch_id (dets : List Detection) (prs : List (ℕ × ℕ)) (jtr : ℕ × Track) :
    (applyMatch dets prs jtr).id = jtr.2.id := by
  unfold applyMatch
  cases prs.find? (fun p => p.2 = jtr.1) with
  | none => rfl
  | some p => rfl

lemma applyMatch_hits (dets : List Detection) (prs : List (ℕ × ℕ)) (jtr : ℕ × Track) :
    (applyMatch dets prs jtr).hits ≤ jtr.2.hits + 1 := by
  unfold applyMatch
  cases prs.find? (fun p => p.2 = jtr.1) with
  | none => exact Nat.le_succ _
  | some p => exact Nat.le_refl _

lemma mem_update_tracks_cases {s : TrackerState} {ds : List Detection} {t : Track}
    (ht : t ∈ (trackerUpdate s ds).1.tracks) :
    (s.next_id ≤ t.id ∧ t.hits = 1) ∨
    ∃ t0 ∈ s.tracks, t0.id = t.id ∧ t.hits ≤ t0.hits + 1 := by
  unfold trackerUpdate at ht
  simp only at ht
  rw [cleanupTracks] at ht
  simp only [List.mem_filter] at ht
  rcases ht with ⟨ht, -⟩
  by_cases hemp : s.tracks = []
  · rw [if_pos hemp] at ht
    simp only at ht
    have h1 := (mkTracks_hits_age t ht).1
    have h2 := (mkTracks_id_lb t ht).1
    exact Or.inl ⟨h2, h1⟩
  · rw [if_neg hemp] at ht
    unfold associateDetections at ht
    by_cases hde : ds = []
    · rw [if_pos hde] at ht
      simp only [List.mem_map] at ht
      rcases ht with ⟨t0, ht0, heq⟩
      refine Or.inr ⟨t0, ht0, ?_, ?_⟩
      · rw [← heq]
      · rw [← heq]; exact Nat.le_succ _
    · rw [if_neg hde] at ht
      simp only [List.mem_append] at ht
      rcases ht with ht | ht
      · simp only [List.mem_map] at ht
        rcases ht with ⟨jtr, hjtr, heq⟩
        have hmem : jtr.2 ∈ s.tracks := mem_of_mem_enum hjtr
        refine Or.inr ⟨jtr.2, hmem, ?_, ?_⟩
        · rw [← heq]; exact (applyMatch_id _ _ _).symm
        · rw [← heq]; exact applyMatch_hits _ _ _
      · have h1 := (mkTracks_hits_age t ht).1
        have h2 := (mkTracks_id_lb t ht).1
        exact Or.inl ⟨h2, h1⟩

/-- C5: in any `update` call, (i) a track is in the returned list iff it
is live in the post-state with `hits ≥ 3`; (ii) every live post-state
track is either freshly created in this call (`hits = 1`, id drawn from
the counter) or descends from a unique pre-state track of the same id
whose hit count it exceeds by at most one — so `hits ≥ 3` means matched
detections in ≥ 3 distinct calls, counting the creating one; (iii) a
track created by this call is never part of this call's return. -/
theorem update_visible_iff_confirmed (s : TrackerState) (ds : List Detection)
    (hinv : TrackerInv s) :
    (∀ t, t ∈ (trackerUpdate s ds).2 ↔ t ∈ (trackerUpdate s ds).1.tracks ∧ 3 ≤ t.hits) ∧
    (∀ t ∈ (trackerUpdate s ds).1.tracks,
      (s.next_id ≤ t.id ∧ t.hits = 1) ∨
      ∃ t0 ∈ s.tracks, t0.id = t.id ∧ t.hits ≤ t0.hits + 1) ∧
    (∀ t ∈ (trackerUpdate s ds).1.tracks, s.next_id ≤ t.id →
      t ∉ (trackerUpdate s ds).2) := by
  refine ⟨?_, fun t ht => mem_update_tracks_cases ht, ?_⟩
  · intro t
    have h : (trackerUpdate s ds).2 = getActiveTracks (trackerUpdate s ds).1 := rfl
    rw [h, getActiveTracks, List.mem_filter]
    simp
  · intro t ht hfresh hret
    rcases mem_update_tracks_cases ht with ⟨-, h1⟩ | ⟨t0, ht0, hid, -⟩
    · have : t ∈ getActiveTracks (trackerUpdate s ds).1 := hret
      rw [getActiveTracks, List.mem_filter] at this
      simp only [decide_eq_true_eq] at this
      omega
    · have := hinv t0 ht0
      omega

/-- Witness for C5: one update call on a concrete state holding one
track with 2 hits, matched by an overlapping detection. -/
theorem update_visible_iff_confirmed_witness :
    TrackerInv ⟨[⟨1, ⟨0,0,10,10⟩, 0, 1, [(5,5)], 0, 2, (0,0)⟩], 2⟩ ∧
    ((∀ t, t ∈ (trackerUpdate ⟨[⟨1, ⟨0,0,10,10⟩, 0, 1, [(5,5)], 0, 2, (0,0)⟩], 2⟩
        [⟨⟨0,0,10,10⟩, 1, 0⟩]).2 ↔
      t ∈ (trackerUpdate ⟨[⟨1, ⟨0,0,10,10⟩, 0, 1, [(5,5)], 0, 2, (0,0)⟩], 2⟩
        [⟨⟨0,0,10,10⟩, 1, 0⟩]).1.tracks ∧ 3 ≤ t.hits) ∧
    (∀ t ∈ (trackerUpdate ⟨[⟨1, ⟨0,0,10,10⟩, 0, 1, [(5,5)], 0, 2, (0,0)⟩], 2⟩
        [⟨⟨0,0,10,10⟩, 1, 0⟩]).1.tracks,
      (2 ≤ t.id ∧ t.hits = 1) ∨
      ∃ t0 ∈ [(⟨1, ⟨0,0,10,10⟩, 0, 1, [(5,5)], 0, 2, (0,0)⟩ : Track)],
        t0.id = t.id ∧ t.hits ≤ t0.hits + 1) ∧
    (∀ t ∈ (trackerUpdate ⟨[⟨1, ⟨0,0,10,10⟩, 0, 1, [(5,5)], 0, 2, (0,0)⟩], 2⟩
        [⟨⟨0,0,10,10⟩, 1, 0⟩]).1.tracks, 2 ≤ t.id →
      t ∉ (trackerUpdate ⟨[⟨1, ⟨0,0,10,10⟩, 0, 1, [(5,5)], 0, 2, (0,0)⟩], 2⟩
        [⟨⟨0,0,10,10⟩, 1, 0⟩]).2)) :=
  ⟨by decide, update_visible_iff_confirmed _ _ (by decide)⟩

end VAD

namespace VAD

lemma ids_enum_applyMatch (s : TrackerState) (dets : List Detection)
    (prs : List (ℕ × ℕ)) :
    (s.tracks.enum.map (applyMatch dets prs)).map Track.id = s.tracks.map Track.id := by
  rw [List.map_map]
  have h1 : (Track.id ∘ applyMatch dets prs) = (fun jtr : ℕ × Track => jtr.2.id) :=
    funext (fun jtr => applyMatch_id dets prs jtr)
  have h2 : (fun jtr : ℕ × Track => jtr.2.id) = Track.id ∘ Prod.snd := rfl
  rw [h1, h2, ← List.map_map, List.enum_map_snd]

lemma trackerUpdate_fst (s : TrackerState) (ds : List Detection) :
    (trackerUpdate s ds).1 = cleanupTracks
      (if s.tracks = [] then
        { tracks := mkTracks s.next_id ds, next_id := s.next_id + ds.length }
      else associateDetections s ds) := rfl

lemma update_ids_sublist (s : TrackerState) (ds : List Detection) :
    s.next_id ≤ (trackerUpdate s ds).1.next_id ∧
    ((trackerUpdate s ds).1.tracks.map Track.id).Sublist
      ((s.tracks.map Track.id) ++
        List.range' s.next_id ((trackerUpdate s ds).1.next_id - s.next_id)) := by
  rw [trackerUpdate_fst]
  by_cases hemp : s.tracks = []
  · rw [if_pos hemp]
    simp only [cleanupTracks]
    refine ⟨Nat.le_add_right _ _, ?_⟩
    rw [hemp]
    simp only [List.map_nil, List.nil_append, Nat.add_sub_cancel_left]
    have h1 := ((@List.filter_sublist _ (fun tr => decide (tr.age ≤ max_age))
      (mkTracks s.next_id ds))).map Track.id
    rwa [mkTracks_map_id] at h1
  · rw [if_neg hemp]
    unfold associateDetections
    by_cases hde : ds = []
    · rw [if_pos hde]
      simp only [cleanupTracks, Nat.sub_self, List.range'_zero, List.append_nil]
      refine ⟨Nat.le_refl _, ?_⟩
      have h1 := ((@List.filter_sublist _ (fun tr => decide (tr.age ≤ max_age))
        (s.tracks.map fun tr => { tr with age := tr.age + 1 }))).map Track.id
      have h2 : (s.tracks.map fun tr => { tr with age := tr.age + 1 }).map Track.id
          = s.tracks.map Track.id := by
        rw [List.map_map]; rfl
      rwa [h2] at h1
    · rw [if_neg hde]
      simp only [cleanupTracks, Nat.add_sub_cancel_left]
      refine ⟨Nat.le_add_right _ _, ?_⟩
      have h1 := ((@List.filter_sublist _ (fun tr => decide (tr.age ≤ max_age))
        (s.tracks.enum.map (applyMatch ds (assocPairs s ds).2.2)
          ++ mkTracks s.next_id (newDetections s ds)))).map Track.id
      rw [List.map_append, ids_enum_applyMatch, mkTracks_map_id] at h1
      simpa using h1

/-- Id discipline of a tracker state: live ids are strictly increasing
in dict (insertion) order and all below the id counter. -/
def TrackerInvFull (s : TrackerState) : Prop :=
  ((s.tracks.map Track.id).Pairwise (· < ·)) ∧ ∀ t ∈ s.tracks, t.id < s.next_id

lemma invFull_step {s : TrackerState} (ds : List Detection)
    (h : TrackerInvFull s) : TrackerInvFull (trackerUpdate s ds).1 := by
  obtain ⟨hmono, hsub⟩ := update_ids_sublist s ds
  have happ : ((s.tracks.map Track.id) ++
      List.range' s.next_id ((trackerUpdate s ds).1.next_id - s.next_id)).Pairwise (· < ·) := by
    rw [List.pairwise_append]
    refine ⟨h.1, List.pairwise_lt_range' _ _, ?_⟩
    intro a ha b hb
    rcases List.mem_map.mp ha with ⟨t, htmem, hta⟩
    have h1 : a < s.next_id := hta ▸ h.2 t htmem
    have h2 : s.next_id ≤ b := (List.mem_range'_1.mp hb).1
    omega
  constructor
  · exact happ.sublist hsub
  · intro t ht
    have : t.id ∈ (trackerUpdate s ds).1.tracks.map Track.id :=
      List.mem_map_of_mem Track.id ht
    have hmem := hsub.mem this
    rcases List.mem_append.mp hmem with hl | hr
    · rcases List.mem_map.mp hl with ⟨t0, ht0, hid⟩
      have := h.2 t0 ht0
      omega
    · have := (List.mem_range'_1.mp hr).2
      omega

/-- The ids that this `update` call freshly assigned: ids live after the
call that were not live before it. -/
def stepNewIds (s : TrackerState) (ds : List Detection) : List ℕ :=
  ((trackerUpdate s ds).1.tracks.map Track.id).filter
    (fun i => decide (¬ i ∈ s.tracks.map Track.id))

/-- All ids assigned over a whole run of `update` calls, in order of
assignment. -/
def runNewIds (s : TrackerState) : List (List Detection) → List ℕ
  | [] => []
  | ds :: rest => stepNewIds s ds ++ runNewIds (trackerUpdate s ds).1 rest

lemma stepNewIds_bounds {s : TrackerState} {ds : List Detection} :
    ∀ x ∈ stepNewIds s ds, s.next_id ≤ x ∧ x < (trackerUpdate s ds).1.next_id := by
  intro x hx
  obtain ⟨hmono, hsub⟩ := update_ids_sublist s ds
  rw [stepNewIds, List.mem_filter] at hx
  rcases hx with ⟨hx1, hx2⟩
  simp only [decide_eq_true_eq] at hx2
  rcases List.mem_append.mp (hsub.mem hx1) with hl | hr
  · exact absurd hl hx2
  · have := List.mem_range'_1.mp hr
    omega

lemma runNewIds_lb : ∀ (dss : List (List Detection)) (s : TrackerState),
    ∀ x ∈ runNewIds s dss, s.next_id ≤ x := by
  intro dss
  induction dss with
  | nil => intro s x hx; simp [runNewIds] at hx
  | cons ds rest ih =>
    intro s x hx
    rcases List.mem_append.mp hx with hl | hr
    · exact (stepNewIds_bounds x hl).1
    · have h1 := ih (trackerUpdate s ds).1 x hr
      have h2 := (update_ids_sublist s ds).1
      omega

lemma runNewIds_pairwise : ∀ (dss : List (List Detection)) (s : TrackerState),
    TrackerInvFull s → (runNewIds s dss).Pairwise (· < ·) := by
  intro dss
  induction dss with
  | nil => intro s _; exact List.Pairwise.nil
  | cons ds rest ih =>
    intro s hinv
    rw [runNewIds, List.pairwise_append]
    refine ⟨?_, ih _ (invFull_step ds hinv), ?_⟩
    · exact ((invFull_step ds hinv).1).filter _
    · intro a ha b hb
      have h1 := (stepNewIds_bounds a ha).2
      have h2 := runNewIds_lb rest (trackerUpdate s ds).1 b hb
      omega

/-- C6: over any run of `update` calls from a fresh tracker, the ids
assigned to newly created tracks are strictly increasing in order of
assignment — in particular an id is never assigned twice, even after
the track bearing it has been deleted. -/
theorem track_ids_strictly_increasing (dss : List (List Detection)) :
    (runNewIds initTracker dss).Pairwise (· < ·) :=
  runNewIds_pairwise dss initTracker ⟨List.Pairwise.nil, by simp [initTracker]⟩

end VAD

namespace VAD

/-! ## Activity Classifier (`src/activity_classifier.py`) -/

/-- The closed activity vocabulary (`ActivityClassifier.ACTIVITIES`). -/
inductive Activity where
  | PARADO
  | CAMINHANDO
  | CORRENDO
  | INTERAGINDO
  | COMPORTAMENTO_ERRATICO
deriving DecidableEq, Repr

/-- `ActivityClassifier._calculate_direction`: the direction of a
position window, represented by its defining displacement vector
(last point − first point).  `None` when fewer than 2 positions or when
the displacement norm is below `1e-6` (squared: below `1e-12`), exactly
the source's guards. -/
def calculate_direction (positions : List (ℚ × ℚ)) : Option (ℚ × ℚ) :=
  match positions.head?, positions.getLast? with
  | some p0, some pn =>
    if positions.length < 2 then none
    else
      let d : ℚ × ℚ := (pn.1 - p0.1, pn.2 - p0.2)
      if normSq d < 1 / 1000000000000 then none else some d
  | _, _ => none

/-- The comparison `abs(_angle_difference(dir1, dir2)) > 45.0` on the
`atan2`-degree directions of two nonzero displacement vectors, expressed
exactly on the vectors: the minimal angular difference θ ∈ [0°,180°]
satisfies θ > 45° iff cos θ < √2 ⁄ 2 iff the dot product is negative or
2·(u·v)² < ‖u‖²·‖v‖². -/
def angleDiffGT45 (u v : ℚ × ℚ) : Bool :=
  let dot := u.1 * v.1 + u.2 * v.2
  if dot < 0 then true else decide (2 * (dot * dot) < normSq u * normSq v)

/-- One iteration of the direction-change loop in
`_is_erratic_behavior`: whether the windows `[i, i+5)` and `[i+5, i+10)`
of `positions` both have a defined direction differing by more than 45°. -/
def directionChangeAt (positions : List (ℚ × ℚ)) (i : ℕ) : Bool :=
  match calculate_direction ((positions.drop i).take 5),
        calculate_direction ((positions.drop (i + 5)).take 5) with
  | some d1, some d2 => angleDiffGT45 d1 d2
  | _, _ => false

/-- `ActivityClassifier._is_erratic_behavior` applied to a track's
position history: needs ≥ 10 samples, then counts the direction changes
over `i ∈ range(len - 10)` (window pairs sliding one sample at a time)
and fires when the count reaches `erratic_changes = 3`. -/
def is_erratic_behavior (positions : List (ℚ × ℚ)) : Bool :=
  if positions.length < 10 then false
  else decide (3 ≤ (List.range (positions.length - 10)).countP
    (fun i => directionChangeAt positions i))

/-- Modelled from the claim's reading of the spec sentence (C3), for
comparison with `is_erratic_behavior`: partition the history into
successive NON-OVERLAPPING windows of size 5 and compare only the
directions of consecutive whole windows; ≥ 3 changes over 45° and ≥ 10
samples required. -/
def is_erratic_partition_reading (positions : List (ℚ × ℚ)) : Bool :=
  if positions.length < 10 then false
  else
    let k := positions.length / 5
    decide (3 ≤ (List.range (k - 1)).countP (fun w =>
      match calculate_direction ((positions.drop (5 * w)).take 5),
            calculate_direction ((positions.drop (5 * (w + 1))).take 5) with
      | some d1, some d2 => angleDiffGT45 d1 d2
      | _, _ => false))

/-- State of an `ActivityClassifier`: per-track position history and
activity history (bounded deques of capacity `history_size = 30`),
keyed by track id in insertion order. -/
structure ClassifierState where
  position_history : List (ℕ × List (ℚ × ℚ))
  activity_history : List (ℕ × List Activity)
deriving DecidableEq, Repr

def initClassifier : ClassifierState := ⟨[], []⟩

/-- In-place association-list update mirroring a Python dict: replaces
the first binding of the key, or appends a fresh binding at the end. -/
def setAssoc (k : ℕ) (v : α) : List (ℕ × α) → List (ℕ × α)
  | [] => [(k, v)]
  | (k', v') :: rest => if k' = k then (k, v) :: rest else (k', v') :: setAssoc k v rest

/-- `dict.get(k, [])`-style lookup with a default. -/
def getAssoc (k : ℕ) (l : List (ℕ × α)) (dflt : α) : α :=
  match l.lookup k with
  | some v => v
  | none => dflt

/-- `ActivityClassifier._update_position_history` for one track. -/
def pushPosition (ph : List (ℕ × List (ℚ × ℚ))) (tid : ℕ) (center : ℚ × ℚ) :
    List (ℕ × List (ℚ × ℚ)) :=
  setAssoc tid (dequeAppend 30 (getAssoc tid ph []) center) ph

/-- `ActivityClassifier._update_position_history` over the frame's
track list. -/
def updatePositionHistory (ph : List (ℕ × List (ℚ × ℚ))) :
    List Track → List (ℕ × List (ℚ × ℚ))
  | [] => ph
  | tr :: rest => updatePositionHistory (pushPosition ph tr.id (bboxCenter tr.bbox)) rest

/-- `ActivityClassifier._classify_individual_activity`: erratic check
first, then speed bands `<2.0 → PARADO`, `<5.0 → CAMINHANDO`,
`≥8.0 → CORRENDO`, else `CAMINHANDO` (all compared via squared speeds). -/
def classify_individual_activity (ph : List (ℕ × List (ℚ × ℚ))) (tr : Track) : Activity :=
  let speedSq := normSq tr.velocity
  if is_erratic_behavior (getAssoc tr.id ph []) then .COMPORTAMENTO_ERRATICO
  else if speedSq < 4 then .PARADO
  else if speedSq < 25 then .CAMINHANDO
  else if 64 ≤ speedSq then .CORRENDO
  else .CAMINHANDO

/-- `ActivityClassifier._check_interactions`: some *other* track exists
with both tracks person-class and centers within 100px. -/
def check_interactions (tr : Track) (all_tracks : List Track) : Bool :=
  all_tracks.any (fun other =>
    decide (¬ other.id = tr.id) &&
    decide (tr.class_id = 0) && decide (other.class_id = 0) &&
    decide (distSq (bboxCenter tr.bbox) (bboxCenter other.bbox) < 10000))

/-- The per-track body of `ActivityClassifier.classify` after the
position histories were refreshed. -/
def classifyTrack (ph : List (ℕ × List (ℚ × ℚ))) (all_tracks : List Track)
    (tr : Track) : Activity :=
  let act := classify_individual_activity ph tr
  if ¬ act = .INTERAGINDO ∧ check_interactions tr all_tracks then .INTERAGINDO
  else act

/-- Append one frame's label to each classified track's activity
history (the classifier's side effect). -/
def pushActivities (ah : List (ℕ × List Activity)) :
    List (ℕ × Activity) → List (ℕ × List Activity)
  | [] => ah
  | (tid, act) :: rest =>
    pushActivities (setAssoc tid (dequeAppend 30 (getAssoc tid ah []) act) ah) rest

/-- `ActivityClassifier.classify`: refresh position histories, label
every track, record the labels.  Returns the new state and the
`{track_id: activity}` association in track order. -/
def classify (cs : ClassifierState) (tracks : List Track) :
    ClassifierState × List (ℕ × Activity) :=
  let ph := updatePositionHistory cs.position_history tracks
  let acts := tracks.map (fun tr => (tr.id, classifyTrack ph tracks tr))
  (⟨ph, pushActivities cs.activity_history acts⟩, acts)

/-- A run of `classify` over successive frames, collecting each frame's
activity map. -/
def classifySeq (cs : ClassifierState) : List (List Track) → List (List (ℕ × Activity))
  | [] => []
  | tks :: rest => (classify cs tks).2 :: classifySeq (classify cs tks).1 rest

end VAD

namespace VAD

lemma mem_of_lookup_eq_some {α : Type} {l : List (ℕ × α)} {k : ℕ} {v : α}
    (h : l.lookup k = some v) : (k, v) ∈ l := by
  induction l with
  | nil => simp [List.lookup] at h
  | cons p rest ih =>
    obtain ⟨k', v'⟩ := p
    rw [List.lookup] at h
    by_cases hk : k = k'
    · subst hk
      simp only [beq_self_eq_true] at h
      injection h with h
      subst h
      exact List.mem_cons_self _ _
    · have hbeq : (k == k') = false := beq_false_of_ne hk
      rw [hbeq] at h
      exact List.mem_cons_of_mem _ (ih h)

/-- All position histories in the map have length at most `m`. -/
def HistBound (ph : List (ℕ × List (ℚ × ℚ))) (m : ℕ) : Prop :=
  ∀ p ∈ ph, (p.2 : List (ℚ × ℚ)).length ≤ m

lemma histBound_mono {ph : List (ℕ × List (ℚ × ℚ))} {m m' : ℕ}
    (h : HistBound ph m) (hm : m ≤ m') : HistBound ph m' :=
  fun p hp => le_trans (h p hp) hm

lemma getAssoc_length_le {ph : List (ℕ × List (ℚ × ℚ))} {m : ℕ} {tid : ℕ}
    (h : HistBound ph m) : (getAssoc tid ph []).length ≤ m := by
  unfold getAssoc
  cases hl : ph.lookup tid with
  | none => simp
  | some v => exact h (tid, v) (mem_of_lookup_eq_some hl)

lemma dequeAppend_length_le {cap : ℕ} {h : List α} {x : α} {m : ℕ}
    (hm : h.length ≤ m) : (dequeAppend cap h x).length ≤ m + 1 := by
  unfold dequeAppend
  split
  · simp [List.length_append]
    omega
  · simp only [List.length_append, List.length_tail, List.length_cons, List.length_nil]
    omega

lemma mem_setAssoc {α : Type} {l : List (ℕ × α)} {k : ℕ} {v : α} {p : ℕ × α}
    (h : p ∈ setAssoc k v l) : p = (k, v) ∨ p ∈ l := by
  induction l with
  | nil => simp [setAssoc] at h; exact Or.inl h
  | cons q rest ih =>
    obtain ⟨k', v'⟩ := q
    rw [setAssoc] at h
    split at h
    · rcases List.mem_cons.mp h with h | h
      · exact Or.inl h
      · exact Or.inr (List.mem_cons_of_mem _ h)
    · rcases List.mem_cons.mp h with h | h
      · exact Or.inr (h ▸ List.mem_cons_self _ _)
      · rcases ih h with h | h
        · exact Or.inl h
        · exact Or.inr (List.mem_cons_of_mem _ h)

lemma pushPosition_bound {ph : List (ℕ × List (ℚ × ℚ))} {m : ℕ} {tid : ℕ}
    {c : ℚ × ℚ} (h : HistBound ph m) : HistBound (pushPosition ph tid c) (m + 1) := by
  intro p hp
  rcases mem_setAssoc hp with h1 | h1
  · subst h1
    exact dequeAppend_length_le (getAssoc_length_le h)
  · exact le_trans (h p h1) (Nat.le_succ _)

lemma updatePositionHistory_bound :
    ∀ (tks : List Track) {ph : List (ℕ × List (ℚ × ℚ))} {m : ℕ},
    HistBound ph m → HistBound (updatePositionHistory ph tks) (m + tks.length) := by
  intro tks
  induction tks with
  | nil => intro ph m h; simpa using h
  | cons tr rest ih =>
    intro ph m h
    rw [updatePositionHistory]
    have := ih (@pushPosition_bound _ _ tr.id (bboxCenter tr.bbox) h)
    have harith : m + 1 + rest.length = m + (rest.length + 1) := by omega
    rwa [harith] at this

lemma is_erratic_short {ps : List (ℚ × ℚ)} (h : ps.length ≤ 10) :
    is_erratic_behavior ps = false := by
  unfold is_erratic_behavior
  by_cases h10 : ps.length < 10
  · rw [if_pos h10]
  · rw [if_neg h10]
    have hlen : ps.length = 10 := le_antisymm h (not_lt.mp h10)
    rw [hlen]
    rfl

lemma classify_single_stationary (cs : ClassifierState) (t : Track)
    (hb : HistBound cs.position_history 9) (hv : normSq t.velocity = 1) :
    (classify cs [t]).2 = [(t.id, Activity.PARADO)] ∧
    (classify cs [t]).1.position_history =
      updatePositionHistory cs.position_history [t] := by
  have hererr : is_erratic_behavior
      (getAssoc t.id (updatePositionHistory cs.position_history [t]) []) = false := by
    apply is_erratic_short
    have := updatePositionHistory_bound [t] hb
    exact getAssoc_length_le this
  refine ⟨?_, rfl⟩
  show [(t.id, classifyTrack _ [t] t)] = [(t.id, Activity.PARADO)]
  have hint : check_interactions t [t] = false := by
    simp [check_interactions]
  have hact : classify_individual_activity
      (updatePositionHistory cs.position_history [t]) t = Activity.PARADO := by
    unfold classify_individual_activity
    rw [hererr]
    simp only [Bool.false_eq_true, if_false]
    rw [hv]
    norm_num
  unfold classifyTrack
  rw [hact, hint]
  simp

lemma classifySeq_stationary_aux :
    ∀ (tks : List Track) (cs : ClassifierState),
    tks.length ≤ 10 →
    HistBound cs.position_history (10 - tks.length) →
    (∀ t ∈ tks, normSq t.velocity = 1) →
    classifySeq cs (tks.map (fun t => [t])) =
      tks.map (fun t => [(t.id, Activity.PARADO)]) := by
  intro tks
  induction tks with
  | nil => intro cs _ _ _; rfl
  | cons t rest ih =>
    intro cs hlen hb hv
    simp only [List.length_cons] at hlen hb
    have hb9 : HistBound cs.position_history 9 :=
      histBound_mono hb (by omega)
    obtain ⟨hout, hstate⟩ := classify_single_stationary cs t hb9 (hv t (List.mem_cons_self _ _))
    rw [List.map_cons, classifySeq, hout, List.map_cons]
    congr 1
    apply ih
    · omega
    · rw [hstate]
      have hub := updatePositionHistory_bound [t] hb
      apply histBound_mono hub
      simp only [List.length_singleton]
      omega
    · intro t' ht'
      exact hv t' (List.mem_cons_of_mem _ ht')

/-- C2 (amended): a track whose velocity has magnitude exactly 1.0
px/frame on each of 10 consecutive frames, classified alone from a
fresh classifier, is labeled PARADO (STATIONARY) on all 10 frames —
`speed 1.0 < stopped_speed 2.0`, and the erratic check cannot fire
within the first 10 frames of history. -/
theorem velocity_one_classified_stationary (tks : List Track)
    (hlen : tks.length = 10)
    (hv : ∀ t ∈ tks, normSq t.velocity = 1) :
    classifySeq initClassifier (tks.map (fun t => [t])) =
      tks.map (fun t => [(t.id, Activity.PARADO)]) := by
  have h1 : tks.length ≤ 10 := le_of_eq hlen
  have h2 : HistBound initClassifier.position_history (10 - tks.length) := by
    intro p hp
    simp [initClassifier] at hp
  exact classifySeq_stationary_aux tks initClassifier h1 h2 hv

/-- The concrete C2 scenario: one person track gliding rightwards at
velocity (1, 0) — speed exactly 1.0 px/frame — for 10 frames. -/
def constSpeedTracks : List Track :=
  [⟨1, ⟨0, 0, 10, 10⟩, 0, 1, [], 0, 3, (1, 0)⟩,
   ⟨1, ⟨1, 0, 11, 10⟩, 0, 1, [], 0, 3, (1, 0)⟩,
   ⟨1, ⟨2, 0, 12, 10⟩, 0, 1, [], 0, 3, (1, 0)⟩,
   ⟨1, ⟨3, 0, 13, 10⟩, 0, 1, [], 0, 3, (1, 0)⟩,
   ⟨1, ⟨4, 0, 14, 10⟩, 0, 1, [], 0, 3, (1, 0)⟩,
   ⟨1, ⟨5, 0, 15, 10⟩, 0, 1, [], 0, 3, (1, 0)⟩,
   ⟨1, ⟨6, 0, 16, 10⟩, 0, 1, [], 0, 3, (1, 0)⟩,
   ⟨1, ⟨7, 0, 17, 10⟩, 0, 1, [], 0, 3, (1, 0)⟩,
   ⟨1, ⟨8, 0, 18, 10⟩, 0, 1, [], 0, 3, (1, 0)⟩,
   ⟨1, ⟨9, 0, 19, 10⟩, 0, 1, [], 0, 3, (1, 0)⟩]

/-- Witness for C2 (amended) at the concrete 10-frame constant-velocity
run. -/
theorem velocity_one_classified_stationary_witness :
    classifySeq initClassifier (constSpeedTracks.map (fun t => [t])) =
      constSpeedTracks.map (fun t => [(t.id, Activity.PARADO)]) :=
  velocity_one_classified_stationary constSpeedTracks (by decide)
    (by
      intro t ht
      fin_cases ht <;> norm_num [normSq])

/-- C2 counterexample: on the concrete 10-frame run with velocity (1,0)
(magnitude 1.0 px/frame) the classifier labels the track PARADO already
on the first frame, and PARADO is not CAMINHANDO — refuting the claim
that the output is WALKING (CAMINHANDO) on all 10 frames. -/
theorem velocity_one_not_walking :
    (classifySeq initClassifier (constSpeedTracks.map (fun t => [t]))).head? =
      some [(1, Activity.PARADO)] ∧
    Activity.PARADO ≠ Activity.CAMINHANDO := by
  constructor
  · simp only [constSpeedTracks, List.map_cons, classifySeq, List.head?]
    norm_num [classify, classifyTrack, classify_individual_activity,
      check_interactions, is_erratic_behavior, updatePositionHistory,
      pushPosition, setAssoc, getAssoc, initClassifier, dequeAppend,
      normSq, List.lookup]
  · decide

end VAD

namespace VAD

/-- A trajectory that goes east for 10 samples and then north for 10:
one single sharp turn. -/
def turnPath : List (ℚ × ℚ) :=
  [(0,0),(1,0),(2,0),(3,0),(4,0),(5,0),(6,0),(7,0),(8,0),(9,0),
   (9,1),(9,2),(9,3),(9,4),(9,5),(9,6),(9,7),(9,8),(9,9),(9,10)]

/-- C3 counterexample: on a 20-sample history with a single 90° turn,
the source's erratic check fires (its stride-1 sliding window pairs see
the one turn at ≥ 3 offsets) while the claim's partition into
non-overlapping window pairs counts only one >45° change and does not
fire — so the check is not the claimed partition. -/
theorem erratic_is_sliding_not_partition :
    is_erratic_behavior turnPath = true ∧
    is_erratic_partition_reading turnPath = false := by
  constructor
  · norm_num [turnPath, is_erratic_behavior, directionChangeAt,
      calculate_direction, angleDiffGT45, normSq, List.range_succ,
      List.countP_append, List.countP_cons]
  · norm_num [turnPath, is_erratic_partition_reading,
      calculate_direction, angleDiffGT45, normSq, List.range_succ,
      List.countP_append, List.countP_cons]

/-- C3 (amended): the erratic check requires ≥ 10 history samples and
labels ERRATIC exactly when, sliding the window-pair start over every
offset `i ∈ [0, n−10)` (stride 1, overlapping pairs — not a partition),
at least 3 offsets show both window directions defined (displacement
from the window's first to last point, skipped below 1e-6) and
differing by more than 45°. -/
theorem erratic_sliding_characterization (ps : List (ℚ × ℚ)) :
    is_erratic_behavior ps = true ↔
    10 ≤ ps.length ∧
    3 ≤ ((List.range (ps.length - 10)).filter
        (fun i => directionChangeAt ps i)).length := by
  unfold is_erratic_behavior
  by_cases h10 : ps.length < 10
  · rw [if_pos h10]
    simp only [Bool.false_eq_true, false_iff, not_and]
    intro h
    omega
  · rw [if_neg h10]
    rw [List.countP_eq_length_filter]
    simp only [decide_eq_true_eq]
    constructor
    · intro h; exact ⟨not_lt.mp h10, h⟩
    · intro h; exact h.2

end VAD

namespace VAD

/-! ## Anomaly Rule Engine (`src/anomaly_detector.py`)

`AnomalyDetector._check_prolonged_stop` and `_check_abandoned_object`
read `time.time()`; its value at the moment of the `detect` call is the
explicit argument `now`, distinct from the video `timestamp` that
`_update_track_states` stores into the state (`stopped_since`,
`last_seen`).  The description strings of `ANOMALY_TYPES` are omitted;
the severity table is kept. -/

/-- `AnomalyDetector.ANOMALY_TYPES` keys. -/
inductive AnomType where
  | MOVIMENTO_SUBITO
  | VELOCIDADE_ANORMAL
  | PARADA_PROLONGADA
  | AGLOMERACAO
  | MOVIMENTO_REVERSO
  | OBJETO_ABANDONADO
  | DIRECAO_PROIBIDA
deriving DecidableEq, Repr

/-- `AnomalyDetector.SEVERITY_LEVELS`. -/
inductive Severity where
  | BAIXA
  | MEDIA
  | ALTA
deriving DecidableEq, Repr

/-- The fixed type→severity table of `ANOMALY_TYPES`. -/
def severityOf : AnomType → Severity
  | .MOVIMENTO_SUBITO => .MEDIA
  | .VELOCIDADE_ANORMAL => .ALTA
  | .PARADA_PROLONGADA => .BAIXA
  | .AGLOMERACAO => .MEDIA
  | .MOVIMENTO_REVERSO => .BAIXA
  | .OBJETO_ABANDONADO => .ALTA
  | .DIRECAO_PROIBIDA => .MEDIA

/-- Per-track engine state (`self.track_states[track_id]`).  The source
creates `initial_position`, `max_distance`, `first_seen` together and
sets `current_position` and `last_seen` in the same pass, so all fields
except the edge-triggered `stopped_since` are always present.
`maxDistSq` tracks the source's `max_distance` squared. -/
structure TrackState where
  initial_position : ℚ × ℚ
  current_position : ℚ × ℚ
  maxDistSq : ℚ
  stopped_since : Option ℚ
  first_seen : ℚ
  last_seen : ℚ
deriving DecidableEq, Repr

/-- One anomaly record.  Per-track records carry `track_id`/`bbox`;
the crowding record carries `involved_tracks`/`count` instead. -/
structure Anomaly where
  atype : AnomType
  severity : Severity
  frame : ℕ
  timestamp : ℚ
  track_id : Option ℕ
  location : ℚ × ℚ
  bbox : Option Box
  involved_tracks : List ℕ
  count : ℕ
deriving DecidableEq, Repr

/-- `AnomalyDetector` instance state. -/
structure AnomalyState where
  track_states : List (ℕ × TrackState)
  velocity_history : List (ℕ × List (ℚ × ℚ))
  anomalies : List Anomaly
deriving DecidableEq, Repr

def initAnomaly : AnomalyState := ⟨[], [], []⟩

/-- The `_update_track_states` body for one track: create the state on
first sight, refresh position/time, fold the squared distance from the
origin into the running maximum, and drive the edge-triggered stillness
timer (`speed < 2.0`, squared: `< 4`). -/
def updOneState (prev : Option TrackState) (tr : Track) (timestamp : ℚ) : TrackState :=
  let center := bboxCenter tr.bbox
  let st0 := match prev with
    | some st => st
    | none =>
      { initial_position := center, current_position := center,
        maxDistSq := 0, stopped_since := none,
        first_seen := timestamp, last_seen := timestamp }
  let st1 := { st0 with
    current_position := center, last_seen := timestamp,
    maxDistSq := max st0.maxDistSq (distSq center st0.initial_position) }
  if normSq tr.velocity < 4 then
    match st1.stopped_since with
    | some _ => st1
    | none => { st1 with stopped_since := some timestamp }
  else { st1 with stopped_since := none }

/-- Push one velocity sample into the per-track history
(`deque(maxlen = history_size = 10)`). -/
def pushVelocity (vh : List (ℕ × List (ℚ × ℚ))) (tid : ℕ) (v : ℚ × ℚ) :
    List (ℕ × List (ℚ × ℚ)) :=
  setAssoc tid (dequeAppend 10 (getAssoc tid vh []) v) vh

/-- The per-track loop of `_update_track_states`. -/
def updateStatesLoop (ts : ℚ) : List Track → List (ℕ × TrackState) →
    List (ℕ × List (ℚ × ℚ)) → List (ℕ × TrackState) × List (ℕ × List (ℚ × ℚ))
  | [], sts, vh => (sts, vh)
  | tr :: rest, sts, vh =>
    updateStatesLoop ts rest
      (setAssoc tr.id (updOneState (sts.lookup tr.id) tr ts) sts)
      (pushVelocity vh tr.id tr.velocity)

/-- `_update_track_states`: per-track refresh followed by the lazy
purge — states of ids absent from the frame are deleted (with their
velocity history) only once `timestamp - last_seen > 5.0`. -/
def refreshStates (ast : AnomalyState) (tracks : List Track) (ts : ℚ) : AnomalyState :=
  let res := updateStatesLoop ts tracks ast.track_states ast.velocity_history
  let currentIds := tracks.map Track.id
  let keep : ℕ × TrackState → Bool := fun p =>
    decide (p.1 ∈ currentIds) || decide (¬ 5 < ts - p.2.last_seen)
  let removed := (res.1.filter (fun p => ! keep p)).map Prod.fst
  { ast with
    track_states := res.1.filter keep
    velocity_history := res.2.filter (fun q => decide (¬ q.1 ∈ removed)) }

/-- `AnomalyDetector._check_sudden_movement`: needs ≥ 3 recorded
velocity samples; fires when some consecutive velocity difference has
norm above `sudden_acceleration = 10.0` (squared: `> 100`). -/
def check_sudden_movement (vh : List (ℕ × List (ℚ × ℚ))) (tid : ℕ) : Bool :=
  match vh.lookup tid with
  | none => false
  | some vs =>
    if vs.length < 3 then false
    else (vs.zip vs.tail).any (fun p => decide (100 < distSq p.2 p.1))

/-- `AnomalyDetector._check_high_speed`: `speed > 8.0` (squared `> 64`). -/
def check_high_speed (tr : Track) : Bool := decide (64 < normSq tr.velocity)

/-- `AnomalyDetector._check_prolonged_stop`: activity is PARADO, the
stillness timer is set, and `time.time() - stopped_since > 5.0`.
Note the mixed clocks: `now` is the wall clock, `stopped_since` holds a
video timestamp. -/
def check_prolonged_stop (sts : List (ℕ × TrackState)) (tid : ℕ)
    (activity : Option Activity) (now : ℚ) : Bool :=
  if ¬ activity = some Activity.PARADO then false
  else
    match sts.lookup tid with
    | none => false
    | some st =>
      match st.stopped_since with
      | none => false
      | some t0 => decide (5 < now - t0)

/-- `AnomalyDetector._check_reverse_movement`: current distance from the
origin under `return_threshold = 50` (squared `< 2500`) after the
running maximum exceeded `2 × 50 = 100` (squared `> 10000`). -/
def check_reverse_movement (sts : List (ℕ × TrackState)) (tid : ℕ) : Bool :=
  match sts.lookup tid with
  | none => false
  | some st =>
    decide (distSq st.current_position st.initial_position < 2500) &&
    decide (10000 < st.maxDistSq)

/-- `AnomalyDetector._check_abandoned_object`: non-person, PARADO,
stillness timer set, `time.time() - stopped_since > 10.0`. -/
def check_abandoned_object (sts : List (ℕ × TrackState)) (tr : Track)
    (activity : Option Activity) (now : ℚ) : Bool :=
  if tr.class_id = 0 then false
  else if ¬ activity = some Activity.PARADO then false
  else
    match sts.lookup tr.id with
    | none => false
    | some st =>
      match st.stopped_since with
      | none => false
      | some t0 => decide (10 < now - t0)

/-- `AnomalyDetector._create_anomaly`. -/
def mkTrackAnomaly (t : AnomType) (tr : Track) (frame : ℕ) (ts : ℚ) : Anomaly :=
  { atype := t, severity := severityOf t, frame := frame, timestamp := ts,
    track_id := some tr.id, location := bboxCenter tr.bbox,
    bbox := some tr.bbox, involved_tracks := [], count := 0 }

/-- The five per-track rule evaluations in the body of
`AnomalyDetector.detect`, in source order. -/
def trackAnomalies (ast : AnomalyState) (acts : ℕ → Option Activity)
    (frame : ℕ) (ts now : ℚ) (tr : Track) : List Anomaly :=
  (if check_sudden_movement ast.velocity_history tr.id then
    [mkTrackAnomaly .MOVIMENTO_SUBITO tr frame ts] else []) ++
  (if check_high_speed tr then
    [mkTrackAnomaly .VELOCIDADE_ANORMAL tr frame ts] else []) ++
  (if check_prolonged_stop ast.track_states tr.id (acts tr.id) now then
    [mkTrackAnomaly .PARADA_PROLONGADA tr frame ts] else []) ++
  (if check_reverse_movement ast.track_states tr.id then
    [mkTrackAnomaly .MOVIMENTO_REVERSO tr frame ts] else []) ++
  (if check_abandoned_object ast.track_states tr (acts tr.id) now then
    [mkTrackAnomaly .OBJETO_ABANDONADO tr frame ts] else [])

/-- The inner gathering loop of `_check_crowding`: the seed person plus
every other (by enumeration index) not-yet-checked person within
`crowding_distance = 80` px (squared `< 6400`) of the seed's center. -/
def gatherNearby (all : List (ℕ × Track)) (i : ℕ) (p1 : Track)
    (checked : List ℕ) : List Track :=
  p1 :: ((all.filter (fun jp =>
    decide (¬ jp.1 = i) && decide (¬ jp.2.id ∈ checked) &&
    decide (distSq (bboxCenter p1.bbox) (bboxCenter jp.2.bbox) < 6400))).map Prod.snd)

/-- Componentwise mean of the member centers (`np.mean(..., axis=0)`). -/
def centroid (pts : List (ℚ × ℚ)) : ℚ × ℚ :=
  ((pts.map Prod.fst).sum / pts.length, (pts.map Prod.snd).sum / pts.length)

/-- The AGLOMERACAO record built by `_check_crowding`. -/
def mkCrowdAnomaly (frame : ℕ) (ts : ℚ) (nearby : List Track) : Anomaly :=
  { atype := .AGLOMERACAO, severity := .MEDIA, frame := frame, timestamp := ts,
    track_id := none, location := centroid (nearby.map (fun p => bboxCenter p.bbox)),
    bbox := none, involved_tracks := nearby.map Track.id, count := nearby.length }

/-- The outer loop of `_check_crowding` over the enumerated person list,
carrying the `checked` id set. -/
def crowdLoop (frame : ℕ) (ts : ℚ) (all : List (ℕ × Track)) :
    List (ℕ × Track) → List ℕ → List Anomaly
  | [], _ => []
  | (i, p1) :: rest, checked =>
    if p1.id ∈ checked then crowdLoop frame ts all rest checked
    else
      let nearby := gatherNearby all i p1 checked
      if 3 ≤ nearby.length then
        mkCrowdAnomaly frame ts nearby ::
          crowdLoop frame ts all rest (checked ++ nearby.map Track.id)
      else crowdLoop frame ts all rest checked

/-- `AnomalyDetector._check_crowding`: restricted to person-class
tracks; nothing below `crowding_count = 3` persons. -/
def check_crowding (tracks : List Track) (frame : ℕ) (ts : ℚ) : List Anomaly :=
  let people := tracks.filter (fun t => decide (t.class_id = 0))
  if people.length < 3 then []
  else crowdLoop frame ts people.enum people.enum []

/-- `AnomalyDetector.detect`: refresh the per-track states, run the five
per-track rules on every track followed by the global crowding rule,
append the firings to the persistent log and return them. -/
def detect (ast : AnomalyState) (tracks : List Track)
    (acts : ℕ → Option Activity) (frame : ℕ) (ts now : ℚ) :
    AnomalyState × List Anomaly :=
  let ast1 := refreshStates ast tracks ts
  let frameAnoms := (tracks.map (trackAnomalies ast1 acts frame ts now)).flatten
    ++ check_crowding tracks frame ts
  ({ ast1 with anomalies := ast1.anomalies ++ frameAnoms }, frameAnoms)

end VAD

namespace VAD

/-- C1 (failing-input evaluation): a person track whose speed first
drops below the stopped threshold at video timestamp 0 — stopped for
0 seconds, far less than 5 — already fires PARADA_PROLONGADA in that
very `detect` call, because `_check_prolonged_stop` compares the wall
clock (`time.time()`, here 1700000000) against the stored *video*
timestamp.  The second conjunct exhibits the freshly set stillness
timer `stopped_since = 0`: the elapsed stillness at this frame is
`timestamp - stopped_since = 0 < 5`. -/
theorem prolonged_stop_fires_immediately :
    ((detect initAnomaly [⟨1, ⟨0,0,10,10⟩, 0, 1, [(5,5)], 0, 3, (0,0)⟩]
        (fun i => if i = 1 then some Activity.PARADO else none) 0 0 1700000000).2).map
      Anomaly.atype = [AnomType.PARADA_PROLONGADA] ∧
    ((detect initAnomaly [⟨1, ⟨0,0,10,10⟩, 0, 1, [(5,5)], 0, 3, (0,0)⟩]
        (fun i => if i = 1 then some Activity.PARADO else none) 0 0 1700000000).1.track_states).lookup 1
      = some ⟨(5,5),(5,5),0,some 0,0,0⟩ := by
  constructor
  · norm_num [detect, refreshStates, updateStatesLoop, updOneState, setAssoc, getAssoc,
      pushVelocity, trackAnomalies, check_sudden_movement, check_high_speed,
      check_prolonged_stop, check_reverse_movement, check_abandoned_object,
      check_crowding, crowdLoop, gatherNearby, mkTrackAnomaly, initAnomaly,
      List.lookup, dequeAppend, normSq, distSq, bboxCenter]
  · norm_num [detect, refreshStates, updateStatesLoop, updOneState, setAssoc,
      getAssoc, pushVelocity, initAnomaly, List.lookup, dequeAppend, normSq,
      distSq, bboxCenter]

end VAD

namespace VAD

lemma lookup_setAssoc_self {α : Type} (k : ℕ) (v : α) :
    ∀ l : List (ℕ × α), (setAssoc k v l).lookup k = some v := by
  intro l
  induction l with
  | nil => simp [setAssoc, List.lookup]
  | cons p rest ih =>
    obtain ⟨k', v'⟩ := p
    rw [setAssoc]
    split
    · simp [List.lookup]
    · rename_i hk
      rw [List.lookup]
      have : (k == k') = false := by
        apply beq_false_of_ne
        intro he
        exact hk he.symm
      rw [this]
      exact ih

lemma lookup_setAssoc_ne {α : Type} {k k' : ℕ} (v : α) (h : ¬ k' = k) :
    ∀ l : List (ℕ × α), (setAssoc k v l).lookup k' = l.lookup k' := by
  intro l
  induction l with
  | nil => simp [setAssoc, List.lookup, beq_false_of_ne h]
  | cons p rest ih =>
    obtain ⟨k'', v''⟩ := p
    rw [setAssoc]
    by_cases he : k'' = k
    · rw [if_pos he]
      subst he
      simp [List.lookup, beq_false_of_ne h]
    · rw [if_neg he]
      rw [List.lookup, List.lookup]
      cases hbe : (k' == k'')
      · exact ih
      · rfl

lemma statesLoop_lookup_not_mem (ts : ℚ) :
    ∀ (tracks : List Track) (sts : List (ℕ × TrackState))
      (vh : List (ℕ × List (ℚ × ℚ))) (tid : ℕ),
    ¬ tid ∈ tracks.map Track.id →
    ((updateStatesLoop ts tracks sts vh).1).lookup tid = sts.lookup tid := by
  intro tracks
  induction tracks with
  | nil => intro sts vh tid _; rfl
  | cons tr rest ih =>
    intro sts vh tid hmem
    simp only [List.map_cons, List.mem_cons, not_or] at hmem
    rw [updateStatesLoop]
    rw [ih _ _ tid (by simpa using hmem.2)]
    exact lookup_setAssoc_ne _ hmem.1 sts

lemma statesLoop_lookup (ts : ℚ) :
    ∀ (tracks : List Track) (sts : List (ℕ × TrackState))
      (vh : List (ℕ × List (ℚ × ℚ))) (t : Track),
    (tracks.map Track.id).Nodup → t ∈ tracks →
    ((updateStatesLoop ts tracks sts vh).1).lookup t.id =
      some (updOneState (sts.lookup t.id) t ts) := by
  intro tracks
  induction tracks with
  | nil => intro sts vh t _ hm; simp at hm
  | cons tr rest ih =>
    intro sts vh t hnd hm
    simp only [List.map_cons, List.nodup_cons] at hnd
    rw [updateStatesLoop]
    rcases List.mem_cons.mp hm with rfl | hm
    · rw [statesLoop_lookup_not_mem ts rest _ _ t.id hnd.1]
      exact lookup_setAssoc_self t.id _ sts
    · have hne : ¬ t.id = tr.id := by
        intro he
        exact hnd.1 (he ▸ List.mem_map_of_mem Track.id hm)
      rw [ih _ _ t hnd.2 hm, lookup_setAssoc_ne _ hne sts]

lemma lookup_filter_keep {α : Type} {P : ℕ × α → Bool} {k : ℕ}
    (hk : ∀ v : α, P (k, v) = true) :
    ∀ l : List (ℕ × α), (l.filter P).lookup k = l.lookup k := by
  intro l
  induction l with
  | nil => rfl
  | cons p rest ih =>
    obtain ⟨k', v'⟩ := p
    by_cases he : k = k'
    · subst he
      rw [List.filter_cons_of_pos (hk v'), List.lookup, List.lookup,
        beq_self_eq_true]
    · have hbe : (k == k') = false := beq_false_of_ne he
      cases hP : P (k', v')
      · rw [List.filter_cons_of_neg (by simp [hP]), ih, List.lookup, hbe]
      · rw [List.filter_cons_of_pos hP, List.lookup, hbe, ih, List.lookup, hbe]

lemma refresh_lookup (ast : AnomalyState) (tracks : List Track) (ts : ℚ)
    (t : Track) (hnd : (tracks.map Track.id).Nodup) (hm : t ∈ tracks) :
    ((refreshStates ast tracks ts).track_states).lookup t.id =
      some (updOneState (ast.track_states.lookup t.id) t ts) := by
  show ((updateStatesLoop ts tracks ast.track_states ast.velocity_history).1.filter
      _).lookup t.id = _
  rw [lookup_filter_keep, statesLoop_lookup ts tracks _ _ t hnd hm]
  intro v
  have : t.id ∈ tracks.map Track.id := List.mem_map_of_mem Track.id hm
  simp [this]

lemma check_reverse_movement_iff (sts : List (ℕ × TrackState)) (tid : ℕ) :
    check_reverse_movement sts tid = true ↔
    ∃ st, sts.lookup tid = some st ∧
      distSq st.current_position st.initial_position < 2500 ∧
      10000 < st.maxDistSq := by
  unfold check_reverse_movement
  cases h : sts.lookup tid with
  | none => simp
  | some st => simp

lemma mem_if_singleton {α : Type} {c : Prop} [Decidable c] {x a : α}
    (h : a ∈ (if c then [x] else [])) : c ∧ a = x := by
  split at h
  · rename_i hc
    simp only [List.mem_singleton] at h
    exact ⟨hc, h⟩
  · simp at h

lemma mem_trackAnomalies_track_id {ast : AnomalyState} {acts : ℕ → Option Activity}
    {frame : ℕ} {ts now : ℚ} {tr : Track} {a : Anomaly}
    (ha : a ∈ trackAnomalies ast acts frame ts now tr) : a.track_id = some tr.id := by
  unfold trackAnomalies at ha
  simp only [List.mem_append] at ha
  rcases ha with (((h | h) | h) | h) | h <;>
    rw [(mem_if_singleton h).2] <;> rfl

lemma trackAnomalies_MR_iff (ast : AnomalyState) (acts : ℕ → Option Activity)
    (frame : ℕ) (ts now : ℚ) (tr : Track) :
    (∃ a ∈ trackAnomalies ast acts frame ts now tr,
        a.atype = AnomType.MOVIMENTO_REVERSO) ↔
    check_reverse_movement ast.track_states tr.id = true := by
  constructor
  · rintro ⟨a, ha, hMR⟩
    unfold trackAnomalies at ha
    simp only [List.mem_append] at ha
    rcases ha with (((h | h) | h) | h) | h
    · rw [(mem_if_singleton h).2] at hMR; simp [mkTrackAnomaly] at hMR
    · rw [(mem_if_singleton h).2] at hMR; simp [mkTrackAnomaly] at hMR
    · rw [(mem_if_singleton h).2] at hMR; simp [mkTrackAnomaly] at hMR
    · exact (mem_if_singleton h).1
    · rw [(mem_if_singleton h).2] at hMR; simp [mkTrackAnomaly] at hMR
  · intro hck
    refine ⟨mkTrackAnomaly .MOVIMENTO_REVERSO tr frame ts, ?_, rfl⟩
    unfold trackAnomalies
    simp only [List.mem_append]
    exact Or.inl (Or.inr (by simp [hck]))

lemma mem_crowdLoop_atype {frame : ℕ} {ts : ℚ} {all : List (ℕ × Track)} :
    ∀ {rest : List (ℕ × Track)} {checked : List ℕ} {a : Anomaly},
    a ∈ crowdLoop frame ts all rest checked → a.atype = AnomType.AGLOMERACAO := by
  intro rest
  induction rest with
  | nil => intro checked a ha; simp [crowdLoop] at ha
  | cons p rest ih =>
    intro checked a ha
    obtain ⟨i, p1⟩ := p
    simp only [crowdLoop] at ha
    split_ifs at ha
    · exact ih ha
    · rcases List.mem_cons.mp ha with rfl | ha
      · rfl
      · exact ih ha
    · exact ih ha

lemma mem_check_crowding_atype {tracks : List Track} {frame : ℕ} {ts : ℚ}
    {a : Anomaly} (ha : a ∈ check_crowding tracks frame ts) :
    a.atype = AnomType.AGLOMERACAO := by
  simp only [check_crowding] at ha
  split_ifs at ha
  · simp at ha
  · exact mem_crowdLoop_atype ha

lemma detect_snd (ast : AnomalyState) (tracks : List Track)
    (acts : ℕ → Option Activity) (frame : ℕ) (ts now : ℚ) :
    (detect ast tracks acts frame ts now).2 =
      (tracks.map (trackAnomalies (refreshStates ast tracks ts) acts frame ts now)).flatten
      ++ check_crowding tracks frame ts := rfl

/-- C8: in any `detect` call over tracks with distinct ids, a
MOVIMENTO_REVERSO anomaly is emitted for track `t` iff, after the
state refresh, `t`'s recorded squared max excursion from its origin
exceeds 100² px² while its current squared distance from the origin is
under 50² px² — in particular it never fires for a track whose recorded
excursion never exceeded 100 px. -/
theorem reverse_movement_iff (ast : AnomalyState) (tracks : List Track)
    (acts : ℕ → Option Activity) (frame : ℕ) (ts now : ℚ) (t : Track)
    (hnd : (tracks.map Track.id).Nodup) (hmem : t ∈ tracks) :
    (∃ a ∈ (detect ast tracks acts frame ts now).2,
        a.atype = AnomType.MOVIMENTO_REVERSO ∧ a.track_id = some t.id) ↔
    (∃ st, ((refreshStates ast tracks ts).track_states).lookup t.id = some st ∧
        distSq st.current_position st.initial_position < 2500 ∧
        10000 < st.maxDistSq) := by
  rw [detect_snd]
  constructor
  · rintro ⟨a, ha, hMR, hid⟩
    rcases List.mem_append.mp ha with h | h
    · rcases List.mem_flatten.mp h with ⟨l, hl, hal⟩
      rcases List.mem_map.mp hl with ⟨tr, htr, rfl⟩
      have hta := mem_trackAnomalies_track_id hal
      rw [hta] at hid
      have hide : tr.id = t.id := by injection hid
      have htt : tr = t :=
        List.inj_on_of_nodup_map hnd htr hmem hide
      subst htt
      have hck := (trackAnomalies_MR_iff _ acts frame ts now tr).mp ⟨a, hal, hMR⟩
      exact (check_reverse_movement_iff _ _).mp hck
    · have := mem_check_crowding_atype h
      rw [this] at hMR
      exact absurd hMR (by simp)
  · intro hst
    have hck := (check_reverse_movement_iff
      ((refreshStates ast tracks ts).track_states) t.id).mpr hst
    refine ⟨mkTrackAnomaly .MOVIMENTO_REVERSO t frame ts, ?_, rfl, rfl⟩
    apply List.mem_append_left
    apply List.mem_flatten.mpr
    refine ⟨trackAnomalies (refreshStates ast tracks ts) acts frame ts now t,
      List.mem_map_of_mem _ hmem, ?_⟩
    unfold trackAnomalies
    rw [hck]
    simp

/-- Witness for C8: one track (id 1) whose engine state records a past
squared excursion of 20000 (> 100²) and which now sits 10 px from its
origin — the rule fires, and both sides of the equivalence are
instantiated concretely. -/
theorem reverse_movement_iff_witness :
    (∃ a ∈ (detect ⟨[(1, ⟨(0,0),(0,0), 20000, none, 0, 0⟩)], [], []⟩
        [⟨1, ⟨5,-5,15,5⟩, 0, 1, [], 0, 3, (5,0)⟩]
        (fun j => none) 3 1 99).2,
        a.atype = AnomType.MOVIMENTO_REVERSO ∧
        a.track_id = some (⟨1, ⟨5,-5,15,5⟩, 0, 1, [], 0, 3, (5,0)⟩ : Track).id) ↔
    (∃ st, ((refreshStates ⟨[(1, ⟨(0,0),(0,0), 20000, none, 0, 0⟩)], [], []⟩
        [⟨1, ⟨5,-5,15,5⟩, 0, 1, [], 0, 3, (5,0)⟩] 1).track_states).lookup
          (⟨1, ⟨5,-5,15,5⟩, 0, 1, [], 0, 3, (5,0)⟩ : Track).id = some st ∧
        distSq st.current_position st.initial_position < 2500 ∧
        10000 < st.maxDistSq) :=
  reverse_movement_iff _ _ _ _ _ _ _ (by decide) (List.mem_singleton.mpr rfl)

end VAD

namespace VAD

lemma enum_map_snd_comp {α β : Type} (l : List α) (f : α → β) :
    l.enum.map (fun p => f p.2) = l.map f := by
  have h : (fun p : ℕ × α => f p.2) = f ∘ Prod.snd := rfl
  rw [h, ← List.map_map, List.enum_map_snd]

lemma mem_trackAnomalies_not_AGL {ast : AnomalyState} {acts : ℕ → Option Activity}
    {frame : ℕ} {ts now : ℚ} {tr : Track} {a : Anomaly}
    (ha : a ∈ trackAnomalies ast acts frame ts now tr) :
    ¬ a.atype = AnomType.AGLOMERACAO := by
  unfold trackAnomalies at ha
  simp only [List.mem_append] at ha
  rcases ha with (((h | h) | h) | h) | h <;>
    rw [(mem_if_singleton h).2] <;> simp [mkTrackAnomaly]

lemma mem_trackAnomalies_involved {ast : AnomalyState} {acts : ℕ → Option Activity}
    {frame : ℕ} {ts now : ℚ} {tr : Track} {a : Anomaly}
    (ha : a ∈ trackAnomalies ast acts frame ts now tr) :
    a.involved_tracks = [] := by
  unfold trackAnomalies at ha
  simp only [List.mem_append] at ha
  rcases ha with (((h | h) | h) | h) | h <;>
    rw [(mem_if_singleton h).2] <;> rfl

/-- Filtering a `detect` call's output down to AGLOMERACAO records
yields exactly the crowding rule's output: no per-track rule ever
emits that type. -/
lemma detect_filter_AGL (ast : AnomalyState) (tracks : List Track)
    (acts : ℕ → Option Activity) (frame : ℕ) (ts now : ℚ) :
    (detect ast tracks acts frame ts now).2.filter
        (fun a => decide (a.atype = AnomType.AGLOMERACAO)) =
      check_crowding tracks frame ts := by
  rw [detect_snd, List.filter_append]
  have h1 : ((tracks.map (trackAnomalies (refreshStates ast tracks ts) acts
      frame ts now)).flatten).filter
        (fun a => decide (a.atype = AnomType.AGLOMERACAO)) = [] := by
    apply List.filter_eq_nil_iff.mpr
    intro a ha
    rcases List.mem_flatten.mp ha with ⟨l, hl, hal⟩
    rcases List.mem_map.mp hl with ⟨tr, htr, rfl⟩
    simp [mem_trackAnomalies_not_AGL hal]
  have h2 : (check_crowding tracks frame ts).filter
      (fun a => decide (a.atype = AnomType.AGLOMERACAO)) =
        check_crowding tracks frame ts := by
    apply List.filter_eq_self.mpr
    intro a ha
    simp [mem_check_crowding_atype ha]
  rw [h1, h2, List.nil_append]

lemma gatherNearby_ids_nodup {all : List (ℕ × Track)}
    (hall : (all.map (fun p => p.2.id)).Nodup) {i : ℕ} {p1 : Track}
    (hp : (i, p1) ∈ all) (checked : List ℕ) :
    ((gatherNearby all i p1 checked).map Track.id).Nodup := by
  unfold gatherNearby
  rw [List.map_cons, List.nodup_cons]
  constructor
  · intro hmem
    rw [List.map_map] at hmem
    rcases List.mem_map.mp hmem with ⟨jp, hjp, hid⟩
    rw [List.mem_filter] at hjp
    have hje : jp ∈ all := hjp.1
    have heq : (i, p1) = jp := by
      apply List.inj_on_of_nodup_map hall hp hje
      exact hid.symm
    have : ¬ jp.1 = i := by
      have hcond := hjp.2
      simp only [Bool.and_eq_true, decide_eq_true_eq] at hcond
      exact hcond.1.1
    exact this (by rw [← heq])
  · rw [List.map_map]
    have hsub : ((all.filter (fun jp =>
        decide (¬ jp.1 = i) && decide (¬ jp.2.id ∈ checked) &&
        decide (distSq (bboxCenter p1.bbox) (bboxCenter jp.2.bbox) < 6400))).map
          (fun p : ℕ × Track => p.2.id)).Sublist
        (all.map (fun p : ℕ × Track => p.2.id)) :=
      (List.filter_sublist all).map _
    exact hall.sublist hsub

lemma gatherNearby_not_checked {all : List (ℕ × Track)} {i : ℕ} {p1 : Track}
    {checked : List ℕ} (h1 : ¬ p1.id ∈ checked) :
    ∀ x ∈ (gatherNearby all i p1 checked).map Track.id, ¬ x ∈ checked := by
  intro x hx
  unfold gatherNearby at hx
  rw [List.map_cons, List.mem_cons] at hx
  rcases hx with rfl | hx
  · exact h1
  · rw [List.map_map] at hx
    rcases List.mem_map.mp hx with ⟨jp, hjp, rfl⟩
    rw [List.mem_filter] at hjp
    have hcond := hjp.2
    simp only [Bool.and_eq_true, decide_eq_true_eq] at hcond
    exact hcond.1.2

lemma crowdLoop_disjoint {frame : ℕ} {ts : ℚ} {all : List (ℕ × Track)}
    (hall : (all.map (fun p => p.2.id)).Nodup) :
    ∀ (rest : List (ℕ × Track)) (checked : List ℕ),
    (∀ p ∈ rest, p ∈ all) →
    (∀ a ∈ crowdLoop frame ts all rest checked,
      a.involved_tracks.Nodup ∧ ∀ x ∈ a.involved_tracks, ¬ x ∈ checked) ∧
    List.Pairwise (fun l1 l2 => ∀ x ∈ l1, ¬ x ∈ l2)
      ((crowdLoop frame ts all rest checked).map Anomaly.involved_tracks) := by
  intro rest
  induction rest with
  | nil => intro checked _; simp [crowdLoop]
  | cons p rest ih =>
    intro checked hsub
    obtain ⟨i, p1⟩ := p
    have hp : (i, p1) ∈ all := hsub _ (List.mem_cons_self _ _)
    have hsub2 : ∀ q ∈ rest, q ∈ all := fun q hq => hsub q (List.mem_cons_of_mem _ hq)
    simp only [crowdLoop]
    split_ifs with h1 h2
    · exact ih checked hsub2
    · obtain ⟨ihA, ihP⟩ := ih (checked ++ (gatherNearby all i p1 checked).map Track.id) hsub2
      constructor
      · intro a ha
        rcases List.mem_cons.mp ha with rfl | ha
        · exact ⟨gatherNearby_ids_nodup hall hp checked, gatherNearby_not_checked h1⟩
        · obtain ⟨hn, hc⟩ := ihA a ha
          exact ⟨hn, fun x hx hcx => hc x hx (List.mem_append_left _ hcx)⟩
      · rw [List.map_cons, List.pairwise_cons]
        constructor
        · intro l hl x hx hxl
          rcases List.mem_map.mp hl with ⟨a, ha, rfl⟩
          exact (ihA a ha).2 x hxl (List.mem_append_right _ hx)
        · exact ihP
    · exact ih checked hsub2

/-- C10: within any single `detect` call over tracks with distinct ids,
every AGLOMERACAO record lists pairwise-distinct track ids, and no
track id occurs in the involved lists of two different AGLOMERACAO
records (the `checked` set removes every emitted member from further
grouping). -/
theorem crowding_involved_disjoint (ast : AnomalyState) (tracks : List Track)
    (acts : ℕ → Option Activity) (frame : ℕ) (ts now : ℚ)
    (hnd : (tracks.map Track.id).Nodup) :
    (∀ a ∈ (detect ast tracks acts frame ts now).2,
        a.atype = AnomType.AGLOMERACAO → a.involved_tracks.Nodup) ∧
    List.Pairwise (fun l1 l2 => ∀ x ∈ l1, ¬ x ∈ l2)
      (((detect ast tracks acts frame ts now).2.filter
          (fun a => decide (a.atype = AnomType.AGLOMERACAO))).map
        Anomaly.involved_tracks) := by
  have hall : (((tracks.filter (fun t => decide (t.class_id = 0))).enum).map
      (fun p => p.2.id)).Nodup := by
    rw [enum_map_snd_comp]
    exact hnd.sublist ((List.filter_sublist tracks).map Track.id)
  constructor
  · intro a ha _
    rw [detect_snd] at ha
    rcases List.mem_append.mp ha with h | h
    · rcases List.mem_flatten.mp h with ⟨l, hl, hal⟩
      rcases List.mem_map.mp hl with ⟨tr, htr, rfl⟩
      rw [mem_trackAnomalies_involved hal]
      exact List.nodup_nil
    · simp only [check_crowding] at h
      split_ifs at h
      · simp at h
      · exact ((crowdLoop_disjoint hall _ [] (fun q hq => hq)).1 a h).1
  · rw [detect_filter_AGL]
    simp only [check_crowding]
    split_ifs
    · simp
    · exact (crowdLoop_disjoint hall _ [] (fun q hq => hq)).2

/-- Witness for C10: three mutually-close person tracks with distinct
ids — the theorem instantiates and the id-distinctness hypothesis is
discharged by computation. -/
theorem crowding_involved_disjoint_witness :
    (∀ a ∈ (detect initAnomaly
        [⟨1, ⟨0,0,10,10⟩, 0, 1, [], 0, 3, (0,0)⟩,
         ⟨2, ⟨30,0,40,10⟩, 0, 1, [], 0, 3, (0,0)⟩,
         ⟨3, ⟨0,30,10,40⟩, 0, 1, [], 0, 3, (0,0)⟩]
        (fun j => none) 0 0 0).2,
        a.atype = AnomType.AGLOMERACAO → a.involved_tracks.Nodup) ∧
    List.Pairwise (fun l1 l2 => ∀ x ∈ l1, ¬ x ∈ l2)
      (((detect initAnomaly
        [⟨1, ⟨0,0,10,10⟩, 0, 1, [], 0, 3, (0,0)⟩,
         ⟨2, ⟨30,0,40,10⟩, 0, 1, [], 0, 3, (0,0)⟩,
         ⟨3, ⟨0,30,10,40⟩, 0, 1, [], 0, 3, (0,0)⟩]
        (fun j => none) 0 0 0).2.filter
          (fun a => decide (a.atype = AnomType.AGLOMERACAO))).map
        Anomaly.involved_tracks) :=
  crowding_involved_disjoint _ _ _ _ _ _ (by decide)

end VAD

namespace VAD

/-- C4: a `detect` call over exactly four person tracks with distinct
ids — three mutually within 80 px (squared distances < 6400) and a
fourth at least 80 px from each — emits exactly one AGLOMERACAO record,
whose involved ids are exactly the three close persons; the marked
(`checked`) members, and the far fourth, form no further group. -/
theorem crowding_three_close_one_far (ast : AnomalyState)
    (acts : ℕ → Option Activity) (frame : ℕ) (ts now : ℚ)
    (t1 t2 t3 t4 : Track)
    (hc1 : t1.class_id = 0) (hc2 : t2.class_id = 0)
    (hc3 : t3.class_id = 0) (hc4 : t4.class_id = 0)
    (hnd : [t1.id, t2.id, t3.id, t4.id].Nodup)
    (h12 : distSq (bboxCenter t1.bbox) (bboxCenter t2.bbox) < 6400)
    (h13 : distSq (bboxCenter t1.bbox) (bboxCenter t3.bbox) < 6400)
    (h23 : distSq (bboxCenter t2.bbox) (bboxCenter t3.bbox) < 6400)
    (h14 : 6400 ≤ distSq (bboxCenter t1.bbox) (bboxCenter t4.bbox))
    (h24 : 6400 ≤ distSq (bboxCenter t2.bbox) (bboxCenter t4.bbox))
    (h34 : 6400 ≤ distSq (bboxCenter t3.bbox) (bboxCenter t4.bbox)) :
    ((detect ast [t1, t2, t3, t4] acts frame ts now).2.filter
        (fun a => decide (a.atype = AnomType.AGLOMERACAO))).map
      Anomaly.involved_tracks = [[t1.id, t2.id, t3.id]] := by
  rw [detect_filter_AGL]
  simp only [List.nodup_cons, List.mem_cons, List.mem_singleton,
    List.not_mem_nil, or_false, not_or, List.nodup_nil, and_true] at hnd
  have h41 : ¬ t4.id = t1.id := fun h => hnd.1.2.2 h.symm
  have h42 : ¬ t4.id = t2.id := fun h => hnd.2.1.2 h.symm
  have h43 : ¬ t4.id = t3.id := fun h => hnd.2.2.1 h.symm
  have h14n : ¬ distSq (bboxCenter t1.bbox) (bboxCenter t4.bbox) < 6400 :=
    not_lt.mpr h14
  simp [check_crowding, crowdLoop, gatherNearby, mkCrowdAnomaly,
    List.enum, List.enumFrom, List.filter_cons, hc1, hc2, hc3, hc4,
    h12, h13, h14n, h41, h42, h43]

/-- Witness for C4: persons 1–3 with centers (5,5), (35,5), (5,35)
(mutual squared distances 900, 900, 1800 < 6400) and person 4 at
(305,5), squared distances ≥ 72900 from each — exactly one AGLOMERACAO
with involved ids [1, 2, 3]. -/
theorem crowding_three_close_one_far_witness :
    ((detect initAnomaly
        [⟨1, ⟨0,0,10,10⟩, 0, 1, [], 0, 3, (0,0)⟩,
         ⟨2, ⟨30,0,40,10⟩, 0, 1, [], 0, 3, (0,0)⟩,
         ⟨3, ⟨0,30,10,40⟩, 0, 1, [], 0, 3, (0,0)⟩,
         ⟨4, ⟨300,0,310,10⟩, 0, 1, [], 0, 3, (0,0)⟩]
        (fun j => none) 0 0 0).2.filter
        (fun a => decide (a.atype = AnomType.AGLOMERACAO))).map
      Anomaly.involved_tracks = [[1, 2, 3]] :=
  crowding_three_close_one_far initAnomaly (fun j => none) 0 0 0
    _ _ _ _ rfl rfl rfl rfl (by decide)
    (by norm_num [distSq, normSq, bboxCenter])
    (by norm_num [distSq, normSq, bboxCenter])
    (by norm_num [distSq, normSq, bboxCenter])
    (by norm_num [distSq, normSq, bboxCenter])
    (by norm_num [distSq, normSq, bboxCenter])
    (by norm_num [distSq, normSq, bboxCenter])

end VAD
